import Mathlib

/-!
Verification development for the hyperbiscus DeFi agent (TypeScript monorepo).

The definitions below are a shallow embedding of the agent core:
  * `handleAddLiquidity` — the five-phase add_liquidity workflow of
    packages/agent/src/actions.ts (delegate / execute on the ephemeral
    rollup / commit+undelegate / reconcile-and-checkpoint);
  * `runTick` — the periodic monitoring tick of packages/agent/src/agent.ts
    together with the tool executors of src/tools.ts;
  * `onMessage` — the WebSocket message handler of
    packages/agent/src/ws-server.ts (auth gating and the action gate);
  * `executeAction` — the on-chain ExecuteAction operation of the
    authorization ledger, modelled from the spec (the Anchor program source
    is not part of the dump; only its tests and callers are).

External I/O (RPC reads, transaction submission, the language-model loop)
is represented by explicit oracle records passed in as arguments, and each
embedded function returns, besides its result, a chronological event log so
that propositions about what was submitted, slept, or emitted can be stated.
-/

namespace Hyperbiscus

/-! ## Constants (packages/agent/src/actions.ts, constants.ts) -/

/-- Code standing for the MagicBlock delegation program id
(`DELeGGvXpWV2fqJUhqcF5ZSYMS4JTLjteaAMARRSaeSh`); public keys are embedded
as distinct natural numbers. -/
def DELEGATION_PROGRAM_ID : Nat := 1001

/-- Code standing for the defi_agent program id
(`8reNvTG6PLT4sf4nGbT7VjZ1YqEGXzASkjcSQmQTkJPT`). -/
def AGENT_PROGRAM_ID : Nat := 1002

def ER_PICKUP_DELAY_MS : Nat := 3000

def UNDELEGATION_POLL_INTERVAL_MS : Nat := 5000

def UNDELEGATION_POLL_ATTEMPTS : Nat := 12

def ACTION_LP_REBALANCE : Nat := 0

def EXECUTE_ACTION_AMOUNT : Nat := 100000

/-! ## DelegationLocation (spec §3, derived from the account owner) -/

inductive DelegationLocation
  | Durable
  | Ephemeral
deriving DecidableEq, Repr

/-- Where authority over the session record currently resides, inferred from
the owner program of the session PDA on the base layer (`none` = account
missing). Mirrors `accountInfo?.owner.equals(DELEGATION_PROGRAM_ID) ?? false`. -/
def delegationLocationOf (owner : Option Nat) : DelegationLocation :=
  if owner = some DELEGATION_PROGRAM_ID then DelegationLocation.Ephemeral
  else DelegationLocation.Durable

/-! ## Position snapshot (shared checkLpPosition result) -/

structure LpStatus where
  activeBin : Int
  positionMinBin : Int
  positionMaxBin : Int
  isInRange : Bool
  feeX : Nat
  feeY : Nat
deriving DecidableEq, Repr

/-! ## Action step events (actions.ts `ActionStep`) -/

inductive StepStatus
  | pending
  | success
  | error
deriving DecidableEq, Repr

structure ActionStep where
  step : Int
  total : Nat
  label : String
  status : StepStatus
  txSignature : Option String
  txUrl : Option String
  detail : Option String
deriving DecidableEq, Repr

def mkStep (n : Int) (label : String) (st : StepStatus) : ActionStep :=
  ⟨n, 5, label, st, none, none, none⟩

def mkStepDetail (n : Int) (label : String) (st : StepStatus) (d : String) : ActionStep :=
  ⟨n, 5, label, st, none, none, some d⟩

def mkStepTx (n : Int) (label : String) (st : StepStatus) (sig url : String) : ActionStep :=
  ⟨n, 5, label, st, some sig, some url, none⟩

def mkStepFull (n : Int) (label : String) (st : StepStatus) (sig url d : String) : ActionStep :=
  ⟨n, 5, label, st, some sig, some url, some d⟩

def explorerUrl (sig : String) : String :=
  "https://explorer.solana.com/tx/" ++ sig ++ "?cluster=devnet"

def erExplorerUrl (sig : String) : String :=
  "https://explorer.solana.com/tx/" ++ sig ++
    "?cluster=custom&customUrl=https%3A%2F%2Fdevnet.magicblock.app%2F"

/-- The detail string of the phase-1 success step. -/
def positionDetail (st : LpStatus) : String :=
  "Bin " ++ toString st.activeBin ++ " · [" ++ toString st.positionMinBin ++
    "–" ++ toString st.positionMaxBin ++ "]" ++ " · " ++
    (if st.isInRange then "in range ✓" else "OUT OF RANGE ⚠")

/-! ## Chronological event log

Each workflow run produces a list of events recording, in order, the step
messages pushed to `onStep`, the sleeps performed, and the ledger / rollup
submissions made. -/

inductive Ev
  | step (s : ActionStep)
  | slept (ms : Nat)
  | delegateSubmitted (sig : String)
  | erSubmitted (sig : String)
  | ownershipCheck (i : Nat) (owner : Option Nat)
  | checkpointSubmitted
deriving DecidableEq, Repr

/-- The step messages contained in an event log, in order. -/
def stepsOf (es : List Ev) : List ActionStep :=
  es.filterMap fun e =>
    match e with
    | Ev.step s => some s
    | _ => none

/-- Total milliseconds slept in an event log. -/
def sleptTotal (es : List Ev) : Nat :=
  (es.filterMap fun e =>
    match e with
    | Ev.slept ms => some ms
    | _ => none).sum

/-- Number of base-layer ownership checks performed in an event log. -/
def ownershipChecks (es : List Ev) : Nat :=
  (es.filterMap fun e =>
    match e with
    | Ev.ownershipCheck i o => some (i, o)
    | _ => none).length

/-! ## ER transaction submission (actions.ts `sendErTx`) -/

/-- Outcome of one ephemeral-rollup transaction as observed by the agent:
the result of `sendRawTransaction` + `confirmTransaction` (a signature, or a
thrown error), and `getTransaction(sig)?.meta?.err` afterwards (`none` both
when the receipt is missing and when the instruction succeeded). -/
structure ErTxOutcome where
  send : Except String String
  metaErr : Option String

/-- `sendErTx`: submit and confirm, then inspect the execution receipt; a
transaction whose instruction failed (`meta.err` set) is turned into a
thrown error exactly like a submission failure. -/
def sendErTx (o : ErTxOutcome) : Except String String :=
  match o.send with
  | Except.error e => Except.error e
  | Except.ok sig =>
    match o.metaErr with
    | some e => Except.error ("ER TX failed on-chain: " ++ e)
    | none => Except.ok sig

/-! ## The add_liquidity workflow (actions.ts `handleAddLiquidity`) -/

/-- Oracle record for all external interactions of one add_liquidity run. -/
structure AddLiqEnv where
  /-- `checkLpPosition` result (phase 1). -/
  readPosition : Except String LpStatus
  /-- `getAccountInfo(sessionPda)?.owner` on the base layer (phase 2). -/
  sessionAccountOwner : Option Nat
  /-- `readSessionOwner` — owner pubkey decoded from the raw account bytes. -/
  sessionOwnerBytes : Option Nat
  /-- `delegateSession(owner).rpc(...)` result. -/
  delegateSend : Except String String
  /-- `sendErTx` observation for the phase-3 `executeAction` transaction. -/
  erAction : ErTxOutcome
  /-- `sendErTx` observation for the phase-4 `commitSession` transaction. -/
  erCommit : ErTxOutcome
  /-- `sendErTx` observation for the phase-4 `undelegateSession` transaction. -/
  erUndelegate : ErTxOutcome
  /-- `getAccountInfo(sessionPda)?.owner` at reconciliation poll attempt `i`. -/
  pollOwner : Nat → Option Nat
  /-- `submitUpdateLpStatus(ctx, activeBin, feeX, feeY)` result (phase 5). -/
  checkpointSend : Int → Nat → Nat → Except String String

/-! Named step messages (the `emit` calls of actions.ts). -/

def step1Pending : ActionStep :=
  mkStep 1 "Reading LP position from Solana" StepStatus.pending

def step1Success (status : LpStatus) : ActionStep :=
  mkStepDetail 1 "LP position read" StepStatus.success (positionDetail status)

def step2Pending : ActionStep :=
  mkStep 2 "Delegating session to MagicBlock ER" StepStatus.pending

def step2Already : ActionStep :=
  mkStepDetail 2 "Session already delegated to ER" StepStatus.success
    "Session PDA already under MagicBlock ER control"

def step2Delegated (sig : String) : ActionStep :=
  mkStepFull 2 "Session delegated to Ephemeral Rollup" StepStatus.success
    sig (explorerUrl sig) "Session PDA transferred to MagicBlock · ER ready"

def step3Pending : ActionStep :=
  mkStep 3 "Executing LP action on Ephemeral Rollup" StepStatus.pending

def step3Success (sig : String) : ActionStep :=
  mkStepFull 3 "LP action confirmed on ER" StepStatus.success
    sig (erExplorerUrl sig) "execute_action (LP_REBALANCE) · sub-10ms ER finality"

def step4Pending : ActionStep :=
  mkStep 4 "Committing state & undelegating from ER" StepStatus.pending

def step4Success (commitSig undelegateSig : String) : ActionStep :=
  mkStepFull 4 "State committed & undelegated from ER" StepStatus.success
    undelegateSig (erExplorerUrl undelegateSig)
    ("commit: " ++ commitSig.take 8 ++ "… · undelegate: " ++ undelegateSig.take 8 ++ "…")

def step5Pending : ActionStep :=
  mkStep 5 "Checkpointing LP status on Solana" StepStatus.pending

def step5Checkpointed (sig : String) : ActionStep :=
  mkStepTx 5 "LP status checkpointed on-chain" StepStatus.success sig (explorerUrl sig)

def step5CheckpointFailed (e : String) : ActionStep :=
  mkStep 5 ("Checkpoint failed: " ++ e) StepStatus.error

/-- The terminal error step of the workflow boundary handler. -/
def errorStep (e : String) : ActionStep :=
  mkStep (-1) ("Error: " ++ e) StepStatus.error

/-- The events of the checkpoint attempt once the ownership reversion has
been observed (the inner `try`/`catch` of actions.ts lines 273-289): the
write is submitted, and either a success or an error step is emitted. -/
def checkpointEvents (env : AddLiqEnv) (status : LpStatus) : List Ev :=
  match env.checkpointSend status.activeBin status.feeX status.feeY with
  | Except.ok sig => [Ev.checkpointSubmitted, Ev.step (step5Checkpointed sig)]
  | Except.error e => [Ev.checkpointSubmitted, Ev.step (step5CheckpointFailed e)]

/-- The phase-5 reconciliation poll (the `for` loop of actions.ts lines
267-295): sleep one interval, fetch the owner, and as soon as the account is
no longer owned by the delegation program submit the checkpoint write
(emitting a success or error step); the boolean result is the
`checkpointed` flag (false when every attempt still saw the delegation
program as owner). -/
def pollLoop (env : AddLiqEnv) (status : LpStatus) :
    Nat → Nat → List Ev → List Ev × Bool
  | _, 0, es => (es, false)
  | i, Nat.succ fuel, es =>
    let es := es ++ [Ev.slept UNDELEGATION_POLL_INTERVAL_MS]
    let info := env.pollOwner i
    let es := es ++ [Ev.ownershipCheck i info]
    if info = some DELEGATION_PROGRAM_ID then
      pollLoop env status (i + 1) fuel es
    else
      (es ++ checkpointEvents env status, true)

/-- The soft-success step emitted when the reconciliation poll exhausts its
attempts without observing the ownership reversion. -/
def deferredStep : ActionStep :=
  mkStepDetail 5 "ER flow complete — base-layer sync pending" StepStatus.success
    ("ER TXs confirmed. Undelegation propagation delayed on devnet (known issue). " ++
     "Next monitoring tick will checkpoint once the account is returned.")

/-- Phase 5: checkpoint after waiting for undelegation to propagate. -/
def phase5 (env : AddLiqEnv) (status : LpStatus) (es : List Ev) : List Ev :=
  let es := es ++ [Ev.step step5Pending]
  match pollLoop env status 0 UNDELEGATION_POLL_ATTEMPTS es with
  | (es, true) => es
  | (es, false) => es ++ [Ev.step deferredStep]

/-- Phases 3 and 4: execute the scoped action on the ephemeral rollup, then
commit and undelegate. Any `sendErTx` error (submission failure or silent
instruction failure) propagates to the workflow boundary. -/
def phase34 (env : AddLiqEnv) (status : LpStatus) (es : List Ev) :
    Except (String × List Ev) (List Ev) :=
  let es := es ++ [Ev.step step3Pending]
  match sendErTx env.erAction with
  | Except.error e => Except.error (e, es)
  | Except.ok erSig =>
    let es := es ++ [Ev.erSubmitted erSig]
    let es := es ++ [Ev.step (step3Success erSig)]
    let es := es ++ [Ev.step step4Pending]
    match sendErTx env.erCommit with
    | Except.error e => Except.error (e, es)
    | Except.ok commitSig =>
      let es := es ++ [Ev.erSubmitted commitSig]
      match sendErTx env.erUndelegate with
      | Except.error e => Except.error (e, es)
      | Except.ok undelegateSig =>
        let es := es ++ [Ev.erSubmitted undelegateSig]
        let es := es ++ [Ev.step (step4Success commitSig undelegateSig)]
        Except.ok (phase5 env status es)

/-- Phase 2: inspect the current delegation location; if the session PDA is
already owned by the delegation program, emit an idempotent success step and
submit nothing; otherwise submit `delegateSession` and wait the fixed settle
delay before phase 3. -/
def phase2 (env : AddLiqEnv) (status : LpStatus) (es : List Ev) :
    Except (String × List Ev) (List Ev) :=
  let es := es ++ [Ev.step step2Pending]
  if env.sessionAccountOwner = some DELEGATION_PROGRAM_ID then
    phase34 env status (es ++ [Ev.step step2Already])
  else
    match env.sessionOwnerBytes with
    | none =>
      Except.error
        ("Could not read session owner from on-chain account — is SESSION_PDA correct?", es)
    | some _ownerPubkey =>
      match env.delegateSend with
      | Except.error e => Except.error (e, es)
      | Except.ok delegateSig =>
        let es := es ++ [Ev.delegateSubmitted delegateSig]
        let es := es ++ [Ev.slept ER_PICKUP_DELAY_MS]
        let es := es ++ [Ev.step (step2Delegated delegateSig)]
        phase34 env status es

/-- The `try` block of `handleAddLiquidity`: phases 1 through 5; an error
value carries the thrown message together with the events so far. -/
def addLiquidityInner (env : AddLiqEnv) : Except (String × List Ev) (List Ev) :=
  let es := [Ev.step step1Pending]
  match env.readPosition with
  | Except.error e => Except.error (e, es)
  | Except.ok status =>
    let es := es ++ [Ev.step (step1Success status)]
    phase2 env status es

/-- `handleAddLiquidity`: run the five phases; any exception is caught at
the workflow boundary and reported as a single terminal error step with
index −1, and the function returns normally. -/
def handleAddLiquidity (env : AddLiqEnv) : List Ev :=
  match addLiquidityInner env with
  | Except.ok es => es
  | Except.error (e, es) => es ++ [Ev.step (errorStep e)]

/-! ## The periodic monitoring tick (agent.ts `runTick`, tools.ts executors)

The tick runs a ReAct loop: the language model is sent the context and
replies either with tool calls (`check_lp_position`, `update_lp_status`) or
with a final summary. The model is external, so its replies are an input
script; the tool executors and the resulting tick message are embedded
faithfully. Tool inputs arrive already typed (the JSON-level type check of
`executeTool` always passes for them). -/

/-- Outcome of one `update_lp_status` submission:
`sendAndConfirmTransaction` (signature or thrown error) and
`getTransaction(sig)?.meta?.err` afterwards. -/
structure UpdateOutcome where
  send : Except String String
  metaErr : Option String

/-- `submitUpdateLpStatus` (solana.ts): send and confirm the checkpoint
transaction, then verify through the receipt that it did not fail silently. -/
def submitUpdateLpStatus (o : UpdateOutcome) : Except String String :=
  match o.send with
  | Except.error e => Except.error e
  | Except.ok sig =>
    match o.metaErr with
    | some e => Except.error ("update_lp_status TX failed: " ++ e)
    | none => Except.ok sig

/-- One tool call issued by the model during a tick. -/
inductive ToolCall
  | check
  | update (activeBin : Int) (feeX feeY : Nat)
deriving DecidableEq, Repr

/-- One reply of the model inside the ReAct loop. -/
inductive LlmResponse
  | endTurn (text : String)
  | toolUse (calls : List ToolCall)
  | otherStop (reason : String)
deriving DecidableEq, Repr

/-- Oracle record for the externals of one tick. `sessionOwner` is the
owner program of the session PDA on the base layer during the tick; it is
part of the observable world state, available to the code had it chosen to
read it. -/
structure TickEnv where
  sessionOwner : Option Nat
  checkOutcome : Except String LpStatus
  updateOutcome : Nat → UpdateOutcome

/-- Mutable state threaded through the ReAct loop: the captured tool
outputs for the broadcast (`checkResult`, `txResult`), the summary, and a
trace of checkpoint submissions and caught tool errors. -/
structure TickState where
  checkResult : Option LpStatus
  txResult : Option (String × String)
  summary : String
  checkpointSubmits : Nat
  updateCalls : Nat
  toolErrors : List String
deriving DecidableEq, Repr

def TickState.init : TickState := ⟨none, none, "", 0, 0, []⟩

/-- Execute one tool call (agent.ts lines 87-111 together with the
executors of tools.ts): a throwing executor is caught and recorded as an
error tool result; on success the output is captured for the broadcast. -/
def execToolCall (env : TickEnv) (s : TickState) (c : ToolCall) : TickState :=
  match c with
  | ToolCall.check =>
    match env.checkOutcome with
    | Except.ok st => { s with checkResult := some st }
    | Except.error e => { s with toolErrors := s.toolErrors ++ [e] }
  | ToolCall.update _ _ _ =>
    let o := env.updateOutcome s.updateCalls
    let s := { s with checkpointSubmits := s.checkpointSubmits + 1,
                      updateCalls := s.updateCalls + 1 }
    match submitUpdateLpStatus o with
    | Except.ok sig => { s with txResult := some (sig, explorerUrl sig) }
    | Except.error e => { s with toolErrors := s.toolErrors ++ [e] }

/-- The ReAct loop of `runTick`: process model replies until `end_turn`
(or an unexpected stop reason, or the script runs out). -/
def runLoop (env : TickEnv) : List LlmResponse → TickState → TickState
  | [], s => s
  | r :: rest, s =>
    match r with
    | LlmResponse.endTurn text => { s with summary := text }
    | LlmResponse.toolUse calls => runLoop env rest (calls.foldl (execToolCall env) s)
    | LlmResponse.otherStop _ => s

/-- The outbound tick message (ws-server.ts `TickMessage`) as built at the
end of `runTick` (agent.ts lines 121-135). -/
structure TickMessage where
  tickNumber : Nat
  activeBin : Option Int
  positionMinBin : Option Int
  positionMaxBin : Option Int
  isInRange : Option Bool
  feeX : Option String
  feeY : Option String
  txSignature : Option String
  explorer : Option String
  summary : String
  error : Option String
deriving DecidableEq, Repr

/-- `runTick`: run the ReAct loop and assemble the tick message from the
captured tool outputs. The `error` field of the returned message is the
literal `null` of agent.ts line 134. -/
def runTick (env : TickEnv) (script : List LlmResponse) (tickNumber : Nat) :
    TickMessage × TickState :=
  let s := runLoop env script TickState.init
  (⟨tickNumber,
    s.checkResult.map (fun st => st.activeBin),
    s.checkResult.map (fun st => st.positionMinBin),
    s.checkResult.map (fun st => st.positionMaxBin),
    s.checkResult.map (fun st => st.isInRange),
    s.checkResult.map (fun st => toString st.feeX),
    s.checkResult.map (fun st => toString st.feeY),
    s.txResult.map (fun p => p.1),
    s.txResult.map (fun p => p.2),
    s.summary,
    none⟩, s)

/-! ## The WebSocket server (ws-server.ts): auth gating and the action gate -/

/-- `tokenEqual` — `Buffer.from` both strings and compare length plus
bytes (`timingSafeEqual` is byte-for-byte equality; its constant-time
execution is a side-channel property outside the functional model). -/
def tokenEqual (provided expected : List Nat) : Bool :=
  provided.length = expected.length && provided = expected

/-- Global server state relevant to the action gate. -/
structure SrvState where
  actionInFlight : Bool
deriving DecidableEq, Repr

/-- An inbound WebSocket message after JSON parsing (frames that fail
`JSON.parse` never reach the handler and are not modelled). The auth token
is `some bytes` when `msg.token` is a string, `none` otherwise. -/
inductive InMsg
  | auth (token : Option (List Nat))
  | chat (message : String)
  | action (name : String)
  | otherMsg
deriving DecidableEq, Repr

/-- Observable effect of handling one message. `workflowStarted` means
`handleAddLiquidity` was launched (its step events follow from that run);
`chatBlockEntered` means the chat branch was reached (its inner busy and
cooldown guards are orthogonal to auth and gating). -/
inductive Effect
  | noEffect
  | greeted
  | closed (code : Nat)
  | chatBlockEntered
  | workflowStarted
  | actionDropped
deriving DecidableEq, Repr

/-- `isAuthenticated` — open access when no secret is configured. -/
def isAuthenticated (secret : Option (List Nat)) (authed : Bool) : Bool :=
  secret.isNone || authed

/-- The `ws.on("message")` handler (ws-server.ts lines 179-283), restricted
to one connection with auth flag `authed` plus the global gate state. -/
def onMessage (secret : Option (List Nat)) (st : SrvState) (authed : Bool)
    (msg : InMsg) : SrvState × Bool × Effect :=
  match msg with
  | InMsg.auth tok =>
    if authed then (st, authed, Effect.noEffect)
    else
      match secret, tok with
      | some s, some t =>
        if tokenEqual t s then (st, true, Effect.greeted)
        else (st, authed, Effect.closed 1008)
      | some _, none => (st, authed, Effect.closed 1008)
      | none, _ => (st, authed, Effect.closed 1008)
  | InMsg.chat _ =>
    if isAuthenticated secret authed then (st, authed, Effect.chatBlockEntered)
    else (st, authed, Effect.closed 1008)
  | InMsg.action name =>
    if isAuthenticated secret authed then
      if name = "add_liquidity" then
        if st.actionInFlight then (st, authed, Effect.actionDropped)
        else (⟨true⟩, authed, Effect.workflowStarted)
      else (st, authed, Effect.noEffect)
    else (st, authed, Effect.closed 1008)
  | InMsg.otherMsg =>
    if isAuthenticated secret authed then (st, authed, Effect.noEffect)
    else (st, authed, Effect.closed 1008)

/-- The `.finally` completion handler of a launched workflow: the gate flag
is cleared unconditionally, whether or not the workflow promise rejected. -/
def onWorkflowDone (_st : SrvState) (_errored : Bool) : SrvState := ⟨false⟩

/-- Process a sequence of messages on one connection, collecting effects. -/
def runConn (secret : Option (List Nat)) :
    SrvState → Bool → List InMsg → SrvState × Bool × List Effect
  | st, authed, [] => (st, authed, [])
  | st, authed, m :: rest =>
    let r := onMessage secret st authed m
    let rr := runConn secret r.1 r.2.1 rest
    (rr.1, rr.2.1, r.2.2 :: rr.2.2)

/-! ## The authorization ledger session (spec §3, §6)

The Anchor program `programs/defi-agent` is not part of the source dump
(only its tests and callers are), so the ledger operation is modelled from
the spec. -/

structure Session where
  owner : Nat
  deviceKey : Nat
  expiresAt : Nat
  maxExposure : Nat
  spentExposure : Nat
  strategyMask : Nat
  active : Bool
  actionCount : Nat
  lastActionAt : Nat
deriving DecidableEq, Repr

inductive LedgerError
  | UnauthorizedKey
  | Expired
  | StrategyNotEnabled
  | ExposureLimitExceeded
deriving DecidableEq, Repr

/-- Modelled from the spec: the `ExecuteAction(category, amount)` operation
of the AuthorizationLedger / ExecutionContext (the on-chain `execute_action`
instruction of programs/defi-agent, absent from the dump). Per spec §6 it
"validates key/expiry/strategy/exposure, applies `spentExposure += amount`,
increments counters", failing with UnauthorizedKey, Expired,
StrategyNotEnabled or ExposureLimitExceeded; the exposure invariant
`spentExposure ≤ maxExposure` is never relaxed. -/
def executeAction (s : Session) (signerKey now category amount : Nat) :
    Except LedgerError Session :=
  if signerKey ≠ s.deviceKey then Except.error LedgerError.UnauthorizedKey
  else if s.expiresAt < now then Except.error LedgerError.Expired
  else if ¬ s.strategyMask.testBit category then Except.error LedgerError.StrategyNotEnabled
  else if s.maxExposure < s.spentExposure + amount then
    Except.error LedgerError.ExposureLimitExceeded
  else
    Except.ok { s with
      spentExposure := s.spentExposure + amount,
      actionCount := s.actionCount + 1,
      lastActionAt := now }

/-- A rejected ExecuteAction leaves the session record untouched (the
failed instruction rolls back; the tests assert `spentLamports` and
`totalActions` unchanged after a rejection). -/
def applyAction (s : Session) (signerKey now category amount : Nat) : Session :=
  match executeAction s signerKey now category amount with
  | Except.ok s2 => s2
  | Except.error _ => s

/-- Run a sequence of ExecuteAction requests `(key, now, category, amount)`. -/
def runActions (s : Session) : List (Nat × Nat × Nat × Nat) → Session
  | [] => s
  | r :: rest => runActions (applyAction s r.1 r.2.1 r.2.2.1 r.2.2.2) rest

/-! ## Derived notions used in the statements -/

/-- The events of `fuel` consecutive poll attempts that all still observe
the delegation program as owner, starting at attempt `i`. -/
def pollBlock (i fuel : Nat) : List Ev :=
  match fuel with
  | 0 => []
  | Nat.succ f =>
    Ev.slept UNDELEGATION_POLL_INTERVAL_MS ::
      Ev.ownershipCheck i (some DELEGATION_PROGRAM_ID) :: pollBlock (i + 1) f


/-- Characterization of any event appended by phases 3, 4 and 5. -/
def phase34Ev (ev : Ev) : Prop :=
  ev = Ev.slept UNDELEGATION_POLL_INTERVAL_MS ∨
  (∃ i o, ev = Ev.ownershipCheck i o) ∨
  ev = Ev.checkpointSubmitted ∨
  (∃ sig, ev = Ev.erSubmitted sig) ∨
  (∃ s, ev = Ev.step s ∧ 3 ≤ s.step ∧ s.step ≤ 5)


/-- The events accumulated by the workflow body, in both the normal and the
thrown case. -/
def innerEvents : Except (String × List Ev) (List Ev) → List Ev
  | Except.ok es => es
  | Except.error (_, es) => es


/-- Characterization of any event appended by phase 2 and later phases. -/
def phase2Ev (ev : Ev) : Prop :=
  phase34Ev ev ∨
  ev = Ev.slept ER_PICKUP_DELAY_MS ∨
  (∃ sig, ev = Ev.delegateSubmitted sig) ∨
  (∃ s, ev = Ev.step s ∧ s.step = 2)


/-- Whether an `Except` value is an error. -/
def isErr {ε α : Type} : Except ε α → Bool
  | Except.error _ => true
  | Except.ok _ => false

/-! ## Concrete example inputs used by counterexamples and witnesses -/

/-- A sample position snapshot. -/
def lpStatusEx : LpStatus := ⟨100, 95, 105, true, 7, 1234⟩

/-- A successfully confirmed ER transaction with a clean receipt. -/
def okOutcome (sig : String) : ErTxOutcome := ⟨Except.ok sig, none⟩

/-- A fully successful workflow environment on an already-delegated session
whose undelegation never propagates within the poll budget. -/
def envExhaust : AddLiqEnv :=
  ⟨Except.ok lpStatusEx, some DELEGATION_PROGRAM_ID, some 5, Except.ok "dsig",
   okOutcome "asig", okOutcome "csig", okOutcome "usig",
   fun _ => some DELEGATION_PROGRAM_ID, fun _ _ _ => Except.ok "cpsig"⟩

/-- A model script for one tick: check the position, then checkpoint, then
summarize — the tick the SOUL.md rules prescribe. -/
def tickScript : List LlmResponse :=
  [LlmResponse.toolUse [ToolCall.check, ToolCall.update 100 7 1234],
   LlmResponse.endTurn "Position in range. Checkpoint submitted."]

/-- A tick environment in which the session PDA is owned by the delegation
program (DelegationLocation = Ephemeral) and the checkpoint write succeeds. -/
def envTickEphemeral : TickEnv :=
  ⟨some DELEGATION_PROGRAM_ID, Except.ok lpStatusEx,
   fun _ => ⟨Except.ok "ticksig", none⟩⟩

/-- A tick environment in which the checkpoint write is accepted for
inclusion but fails at the instruction level. -/
def envTickFailing : TickEnv :=
  ⟨some AGENT_PROGRAM_ID, Except.ok lpStatusEx,
   fun _ => ⟨Except.ok "failsig", some "InstructionError"⟩⟩

/-- A sample session: device key 2, expiry 100, cap 1000000, LP strategy
bit set, nothing spent. -/
def sessionEx : Session := ⟨1, 2, 100, 1000000, 0, 1, true, 0, 0⟩

/-! ## Helper lemmas about the workflow -/

lemma pollLoop_delegated (env : AddLiqEnv) (status : LpStatus) :
    ∀ (fuel i : Nat), (∀ j, j < fuel → env.pollOwner (i + j) = some DELEGATION_PROGRAM_ID) →
      ∀ es, pollLoop env status i fuel es = (es ++ pollBlock i fuel, false) := by
  intro fuel
  induction fuel with
  | zero => intro i h es; simp [pollLoop, pollBlock]
  | succ f ih =>
    intro i h es
    have h0 : env.pollOwner i = some DELEGATION_PROGRAM_ID := by
      have := h 0 (Nat.succ_pos f)
      simpa using this
    have hrest : ∀ j, j < f → env.pollOwner ((i + 1) + j) = some DELEGATION_PROGRAM_ID := by
      intro j hj
      have := h (j + 1) (Nat.succ_lt_succ hj)
      simpa [Nat.add_assoc, Nat.add_comm 1 j] using this
    simp only [pollLoop, h0, if_pos]
    rw [ih (i + 1) hrest]
    simp [pollBlock, h0]

lemma pollLoop_returns (env : AddLiqEnv) (status : LpStatus) :
    ∀ (k fuel i : Nat), k < fuel →
      (∀ j, j < k → env.pollOwner (i + j) = some DELEGATION_PROGRAM_ID) →
      ¬ env.pollOwner (i + k) = some DELEGATION_PROGRAM_ID →
      ∀ es, pollLoop env status i fuel es =
        (es ++ pollBlock i k ++
          Ev.slept UNDELEGATION_POLL_INTERVAL_MS ::
          Ev.ownershipCheck (i + k) (env.pollOwner (i + k)) ::
          checkpointEvents env status, true) := by
  intro k
  induction k with
  | zero =>
    intro fuel i hk hdel hrev es
    obtain ⟨f, rfl⟩ : ∃ f, fuel = f + 1 := ⟨fuel - 1, by omega⟩
    have h0 : ¬ env.pollOwner i = some DELEGATION_PROGRAM_ID := by simpa using hrev
    simp [pollLoop, pollBlock, h0]
  | succ k ih =>
    intro fuel i hk hdel hrev es
    obtain ⟨f, rfl⟩ : ∃ f, fuel = f + 1 := ⟨fuel - 1, by omega⟩
    have h0 : env.pollOwner i = some DELEGATION_PROGRAM_ID := by
      have := hdel 0 (Nat.succ_pos k)
      simpa using this
    have hdel' : ∀ j, j < k → env.pollOwner ((i + 1) + j) = some DELEGATION_PROGRAM_ID := by
      intro j hj
      have := hdel (j + 1) (Nat.succ_lt_succ hj)
      simpa [Nat.add_assoc, Nat.add_comm 1 j] using this
    have hrev' : ¬ env.pollOwner ((i + 1) + k) = some DELEGATION_PROGRAM_ID := by
      have : (i + 1) + k = i + (k + 1) := by omega
      rw [this]
      exact hrev
    have harith : (i + 1) + k = i + (k + 1) := by omega
    simp only [pollLoop, h0, if_pos]
    rw [ih f (i + 1) (by omega) hdel' hrev']
    simp [pollBlock, h0, harith]

lemma checkpointEvents_phase34Ev (env : AddLiqEnv) (status : LpStatus) :
    ∀ ev ∈ checkpointEvents env status, phase34Ev ev := by
  intro ev hev
  unfold checkpointEvents at hev
  rcases hcp : env.checkpointSend status.activeBin status.feeX status.feeY with e | sig <;>
    rw [hcp] at hev <;> simp only [List.mem_cons, List.mem_singleton, List.not_mem_nil] at hev <;>
    rcases hev with rfl | rfl | h <;>
    first
      | exact Or.inr (Or.inr (Or.inl rfl))
      | exact Or.inr (Or.inr (Or.inr (Or.inr
          ⟨_, rfl, by simp [step5Checkpointed, step5CheckpointFailed, mkStep, mkStepTx]⟩)))
      | cases h

lemma pollLoop_tail (env : AddLiqEnv) (status : LpStatus) :
    ∀ (fuel i : Nat) (es : List Ev), ∃ rest,
      (pollLoop env status i fuel es).1 = es ++ rest ∧ ∀ ev ∈ rest, phase34Ev ev := by
  intro fuel
  induction fuel with
  | zero => intro i es; exact ⟨[], by simp [pollLoop], by simp⟩
  | succ f ih =>
    intro i es
    by_cases h0 : env.pollOwner i = some DELEGATION_PROGRAM_ID
    · obtain ⟨rest, hr, hall⟩ :=
        ih (i + 1) (es ++ [Ev.slept UNDELEGATION_POLL_INTERVAL_MS,
          Ev.ownershipCheck i (some DELEGATION_PROGRAM_ID)])
      refine ⟨Ev.slept UNDELEGATION_POLL_INTERVAL_MS ::
        Ev.ownershipCheck i (some DELEGATION_PROGRAM_ID) :: rest, ?_, ?_⟩
      · simp only [pollLoop, h0, if_pos]
        rw [show es ++ [Ev.slept UNDELEGATION_POLL_INTERVAL_MS] ++
            [Ev.ownershipCheck i (some DELEGATION_PROGRAM_ID)] =
            es ++ [Ev.slept UNDELEGATION_POLL_INTERVAL_MS,
              Ev.ownershipCheck i (some DELEGATION_PROGRAM_ID)] by simp]
        rw [hr]
        simp
      · intro ev hev
        simp only [List.mem_cons] at hev
        rcases hev with rfl | rfl | hev
        · exact Or.inl rfl
        · exact Or.inr (Or.inl ⟨i, some DELEGATION_PROGRAM_ID, rfl⟩)
        · exact hall ev hev
    · refine ⟨Ev.slept UNDELEGATION_POLL_INTERVAL_MS ::
        Ev.ownershipCheck i (env.pollOwner i) :: checkpointEvents env status, ?_, ?_⟩
      · simp [pollLoop, h0]
      · intro ev hev
        simp only [List.mem_cons] at hev
        rcases hev with rfl | rfl | hev
        · exact Or.inl rfl
        · exact Or.inr (Or.inl ⟨i, env.pollOwner i, rfl⟩)
        · exact checkpointEvents_phase34Ev env status ev hev

lemma phase5_tail (env : AddLiqEnv) (status : LpStatus) (es : List Ev) :
    ∃ rest, phase5 env status es = es ++ Ev.step step5Pending :: rest ∧
      ∀ ev ∈ rest, phase34Ev ev := by
  obtain ⟨rest, hr, hall⟩ :=
    pollLoop_tail env status UNDELEGATION_POLL_ATTEMPTS 0 (es ++ [Ev.step step5Pending])
  rcases hp : pollLoop env status 0 UNDELEGATION_POLL_ATTEMPTS (es ++ [Ev.step step5Pending])
    with ⟨es2, b⟩
  rw [hp] at hr
  simp only at hr
  cases b
  · refine ⟨rest ++ [Ev.step deferredStep], ?_, ?_⟩
    · simp [phase5, hp, hr]
    · intro ev hev
      rcases List.mem_append.mp hev with hev | hev
      · exact hall ev hev
      · rcases List.mem_singleton.mp hev with rfl
        exact Or.inr (Or.inr (Or.inr (Or.inr ⟨deferredStep, rfl, by
          simp [deferredStep, mkStepDetail]⟩)))
  · exact ⟨rest, by simp [phase5, hp, hr], hall⟩

lemma phase34_tail (env : AddLiqEnv) (status : LpStatus) (es : List Ev) :
    ∃ rest, innerEvents (phase34 env status es) = es ++ Ev.step step3Pending :: rest ∧
      ∀ ev ∈ rest, phase34Ev ev := by
  have hstep : ∀ (n : Int) (s : ActionStep), s.step = n → 3 ≤ n → n ≤ 5 → phase34Ev (Ev.step s) := by
    intro n s hs h3 h5
    exact Or.inr (Or.inr (Or.inr (Or.inr ⟨s, rfl, by rw [hs]; exact h3, by rw [hs]; exact h5⟩)))
  unfold phase34
  rcases h1 : sendErTx env.erAction with e | aSig
  · exact ⟨[], by simp [innerEvents], by simp⟩
  · rcases h2 : sendErTx env.erCommit with e | cSig
    · refine ⟨[Ev.erSubmitted aSig, Ev.step (step3Success aSig), Ev.step step4Pending], ?_, ?_⟩
      · simp [innerEvents]
      · intro ev hev
        simp only [List.mem_cons, List.mem_singleton, List.not_mem_nil, or_false] at hev
        rcases hev with rfl | rfl | rfl
        · exact Or.inr (Or.inr (Or.inr (Or.inl ⟨aSig, rfl⟩)))
        · exact hstep 3 _ rfl (by omega) (by omega)
        · exact hstep 4 _ rfl (by omega) (by omega)
    · rcases h3 : sendErTx env.erUndelegate with e | uSig
      · refine ⟨[Ev.erSubmitted aSig, Ev.step (step3Success aSig), Ev.step step4Pending,
          Ev.erSubmitted cSig], ?_, ?_⟩
        · simp [innerEvents]
        · intro ev hev
          simp only [List.mem_cons, List.mem_singleton, List.not_mem_nil, or_false] at hev
          rcases hev with rfl | rfl | rfl | rfl
          · exact Or.inr (Or.inr (Or.inr (Or.inl ⟨aSig, rfl⟩)))
          · exact hstep 3 _ rfl (by omega) (by omega)
          · exact hstep 4 _ rfl (by omega) (by omega)
          · exact Or.inr (Or.inr (Or.inr (Or.inl ⟨cSig, rfl⟩)))
      · obtain ⟨rest5, hr5, hall5⟩ := phase5_tail env status
          (es ++ Ev.step step3Pending :: [Ev.erSubmitted aSig, Ev.step (step3Success aSig),
            Ev.step step4Pending, Ev.erSubmitted cSig, Ev.erSubmitted uSig,
            Ev.step (step4Success cSig uSig)])
        refine ⟨[Ev.erSubmitted aSig, Ev.step (step3Success aSig), Ev.step step4Pending,
          Ev.erSubmitted cSig, Ev.erSubmitted uSig, Ev.step (step4Success cSig uSig),
          Ev.step step5Pending] ++ rest5, ?_, ?_⟩
        · simp only [innerEvents]
          rw [show (es ++ [Ev.step step3Pending] ++ [Ev.erSubmitted aSig] ++
              [Ev.step (step3Success aSig)] ++ [Ev.step step4Pending] ++ [Ev.erSubmitted cSig] ++
              [Ev.erSubmitted uSig] ++ [Ev.step (step4Success cSig uSig)]) =
              (es ++ Ev.step step3Pending :: [Ev.erSubmitted aSig, Ev.step (step3Success aSig),
                Ev.step step4Pending, Ev.erSubmitted cSig, Ev.erSubmitted uSig,
                Ev.step (step4Success cSig uSig)]) by simp]
          rw [hr5]
          simp
        · intro ev hev
          simp only [List.mem_append, List.mem_cons, List.mem_singleton,
            List.not_mem_nil, or_false] at hev
          rcases hev with (rfl | rfl | rfl | rfl | rfl | rfl | rfl) | hev
          · exact Or.inr (Or.inr (Or.inr (Or.inl ⟨aSig, rfl⟩)))
          · exact hstep 3 _ rfl (by omega) (by omega)
          · exact hstep 4 _ rfl (by omega) (by omega)
          · exact Or.inr (Or.inr (Or.inr (Or.inl ⟨cSig, rfl⟩)))
          · exact Or.inr (Or.inr (Or.inr (Or.inl ⟨uSig, rfl⟩)))
          · exact hstep 4 _ rfl (by omega) (by omega)
          · exact hstep 5 _ rfl (by omega) (by omega)
          · exact hall5 ev hev

lemma phase2_tail (env : AddLiqEnv) (status : LpStatus) (es : List Ev) :
    ∃ rest, innerEvents (phase2 env status es) = es ++ Ev.step step2Pending :: rest ∧
      ∀ ev ∈ rest, phase2Ev ev := by
  unfold phase2
  by_cases hd : env.sessionAccountOwner = some DELEGATION_PROGRAM_ID
  · obtain ⟨rest, hr, hall⟩ := phase34_tail env status
      (es ++ Ev.step step2Pending :: [Ev.step step2Already])
    refine ⟨Ev.step step2Already :: Ev.step step3Pending :: rest, ?_, ?_⟩
    · rw [if_pos hd]
      rw [show (es ++ [Ev.step step2Pending] ++ [Ev.step step2Already]) =
          (es ++ Ev.step step2Pending :: [Ev.step step2Already]) by simp]
      rw [hr]
      simp
    · intro ev hev
      simp only [List.mem_cons] at hev
      rcases hev with rfl | rfl | hev
      · exact Or.inr (Or.inr (Or.inr ⟨step2Already, rfl, rfl⟩))
      · exact Or.inl (Or.inr (Or.inr (Or.inr (Or.inr ⟨step3Pending, rfl, by decide, by decide⟩))))
      · exact Or.inl (hall ev hev)
  · rw [if_neg hd]
    rcases ho : env.sessionOwnerBytes with _ | ow
    · exact ⟨[], by simp [innerEvents], by simp⟩
    · rcases hds : env.delegateSend with e | dSig
      · exact ⟨[], by simp [innerEvents], by simp⟩
      · obtain ⟨rest, hr, hall⟩ := phase34_tail env status
          (es ++ Ev.step step2Pending :: [Ev.delegateSubmitted dSig,
            Ev.slept ER_PICKUP_DELAY_MS, Ev.step (step2Delegated dSig)])
        refine ⟨Ev.delegateSubmitted dSig :: Ev.slept ER_PICKUP_DELAY_MS ::
          Ev.step (step2Delegated dSig) :: Ev.step step3Pending :: rest, ?_, ?_⟩
        · simp only [List.append_assoc, List.singleton_append, List.cons_append,
            List.nil_append] at hr ⊢
          simp [hr]
        · intro ev hev
          simp only [List.mem_cons] at hev
          rcases hev with rfl | rfl | rfl | rfl | hev
          · exact Or.inr (Or.inr (Or.inl ⟨dSig, rfl⟩))
          · exact Or.inr (Or.inl rfl)
          · exact Or.inr (Or.inr (Or.inr ⟨step2Delegated dSig, rfl, rfl⟩))
          · exact Or.inl (Or.inr (Or.inr (Or.inr (Or.inr
              ⟨step3Pending, rfl, by decide, by decide⟩))))
          · exact Or.inl (hall ev hev)

/-- Every step message produced inside the `try` block carries a phase
index between 1 and 5 (in particular, never −1). -/
lemma inner_step_bounds (env : AddLiqEnv) :
    ∀ s, Ev.step s ∈ innerEvents (addLiquidityInner env) → 1 ≤ s.step ∧ s.step ≤ 5 := by
  intro s hs
  unfold addLiquidityInner at hs
  rcases hrp : env.readPosition with e | status
  · rw [hrp] at hs
    simp only [innerEvents, List.mem_singleton] at hs
    injection hs with hs
    subst hs
    exact ⟨by decide, by decide⟩
  · rw [hrp] at hs
    obtain ⟨rest, hr, hall⟩ := phase2_tail env status
      [Ev.step step1Pending, Ev.step (step1Success status)]
    have hs' : Ev.step s ∈ [Ev.step step1Pending, Ev.step (step1Success status)] ++
        Ev.step step2Pending :: rest := by
      rw [← hr]
      simpa using hs
    rcases List.mem_append.mp hs' with h | h
    · rcases List.mem_cons.mp h with h | h
      · injection h with h; subst h; exact ⟨by decide, by decide⟩
      · rcases List.mem_cons.mp h with h | h
        · injection h with h
          subst h
          exact ⟨by norm_num [step1Success, mkStepDetail],
            by norm_num [step1Success, mkStepDetail]⟩
        · exact absurd h (List.not_mem_nil _)
    · rcases List.mem_cons.mp h with h | h
      · injection h with h; subst h; exact ⟨by decide, by decide⟩
      · have h2 := hall _ h
        rcases h2 with h2 | h2 | h2 | h2
        · rcases h2 with h2 | h2 | h2 | h2 | h2
          · cases h2
          · rcases h2 with ⟨i, o, h2⟩; cases h2
          · cases h2
          · rcases h2 with ⟨sig, h2⟩; cases h2
          · rcases h2 with ⟨s2, hs2, h3, h5⟩
            injection hs2 with hs2
            subst hs2
            omega
        · cases h2
        · rcases h2 with ⟨sig, h2⟩; cases h2
        · rcases h2 with ⟨s2, hs2, h2⟩
          injection hs2 with hs2
          subst hs2
          omega

lemma handleAddLiquidity_of_ok (env : AddLiqEnv) (es : List Ev)
    (h : addLiquidityInner env = Except.ok es) : handleAddLiquidity env = es := by
  simp [handleAddLiquidity, h]

lemma handleAddLiquidity_of_error (env : AddLiqEnv) (e : String) (es : List Ev)
    (h : addLiquidityInner env = Except.error (e, es)) :
    handleAddLiquidity env = es ++ [Ev.step (errorStep e)] := by
  simp [handleAddLiquidity, h]

/-- The boundary handler appends at most one (step) event to the events of
the `try` block. -/
lemma handle_tail (env : AddLiqEnv) :
    ∃ tail, handleAddLiquidity env = innerEvents (addLiquidityInner env) ++ tail ∧
      ∀ ev ∈ tail, ∃ s2, ev = Ev.step s2 := by
  rcases h : addLiquidityInner env with ⟨e, es0⟩ | es0
  · refine ⟨[Ev.step (errorStep e)], ?_, ?_⟩
    · simp [handleAddLiquidity, h, innerEvents]
    · intro ev hev
      rcases List.mem_singleton.mp hev with rfl
      exact ⟨errorStep e, rfl⟩
  · exact ⟨[], by simp [handleAddLiquidity, h, innerEvents], by simp⟩

lemma phase34Ev_not_delegate (ev : Ev) (h : phase34Ev ev) :
    (∀ sig, ev ≠ Ev.delegateSubmitted sig) ∧ ev ≠ Ev.slept ER_PICKUP_DELAY_MS := by
  rcases h with h | h | h | h | h
  · subst h
    exact ⟨fun sig => by simp, by decide⟩
  · rcases h with ⟨i, o, rfl⟩
    exact ⟨fun sig => by simp, by simp⟩
  · subst h
    exact ⟨fun sig => by simp, by simp⟩
  · rcases h with ⟨sig2, rfl⟩
    exact ⟨fun sig => by simp, by simp⟩
  · rcases h with ⟨s2, rfl, _⟩
    exact ⟨fun sig => by simp, by simp⟩

lemma stepsOf_append (a b : List Ev) : stepsOf (a ++ b) = stepsOf a ++ stepsOf b := by
  unfold stepsOf
  exact List.filterMap_append a b _

lemma sleptTotal_append (a b : List Ev) :
    sleptTotal (a ++ b) = sleptTotal a + sleptTotal b := by
  unfold sleptTotal
  rw [List.filterMap_append, List.sum_append]

lemma ownershipChecks_append (a b : List Ev) :
    ownershipChecks (a ++ b) = ownershipChecks a + ownershipChecks b := by
  unfold ownershipChecks
  rw [List.filterMap_append, List.length_append]

lemma mem_stepsOf (es : List Ev) (s : ActionStep) : s ∈ stepsOf es ↔ Ev.step s ∈ es := by
  unfold stepsOf
  rw [List.mem_filterMap]
  constructor
  · rintro ⟨ev, hev, hf⟩
    cases ev with
    | step s2 =>
      simp only [Option.some.injEq] at hf
      subst hf
      exact hev
    | slept ms => simp at hf
    | delegateSubmitted sig => simp at hf
    | erSubmitted sig => simp at hf
    | ownershipCheck i o => simp at hf
    | checkpointSubmitted => simp at hf
  · intro h
    exact ⟨Ev.step s, h, rfl⟩

lemma pollBlock_no_checkpoint : ∀ (fuel i : Nat), Ev.checkpointSubmitted ∉ pollBlock i fuel := by
  intro fuel
  induction fuel with
  | zero => intro i; simp [pollBlock]
  | succ f ih =>
    intro i
    simp only [pollBlock, List.mem_cons, not_or]
    exact ⟨by simp, by simp, ih (i + 1)⟩

lemma pollBlock_checks : ∀ (fuel i : Nat), ownershipChecks (pollBlock i fuel) = fuel := by
  intro fuel
  induction fuel with
  | zero => intro i; simp [pollBlock, ownershipChecks]
  | succ f ih =>
    intro i
    have : pollBlock i (f + 1) =
        [Ev.slept UNDELEGATION_POLL_INTERVAL_MS,
          Ev.ownershipCheck i (some DELEGATION_PROGRAM_ID)] ++ pollBlock (i + 1) f := rfl
    rw [this, ownershipChecks_append, ih (i + 1)]
    simp [ownershipChecks]
    omega

lemma pollBlock_slept : ∀ (fuel i : Nat),
    sleptTotal (pollBlock i fuel) = fuel * UNDELEGATION_POLL_INTERVAL_MS := by
  intro fuel
  induction fuel with
  | zero => intro i; simp [pollBlock, sleptTotal]
  | succ f ih =>
    intro i
    have : pollBlock i (f + 1) =
        [Ev.slept UNDELEGATION_POLL_INTERVAL_MS,
          Ev.ownershipCheck i (some DELEGATION_PROGRAM_ID)] ++ pollBlock (i + 1) f := rfl
    rw [this, sleptTotal_append, ih (i + 1)]
    simp [sleptTotal]
    ring

lemma pollBlock_no_step : ∀ (fuel i : Nat) (s : ActionStep),
    Ev.step s ∉ pollBlock i fuel := by
  intro fuel
  induction fuel with
  | zero => intro i s; simp [pollBlock]
  | succ f ih =>
    intro i s
    simp only [pollBlock, List.mem_cons, not_or]
    exact ⟨by simp, by simp, ih (i + 1) s⟩

lemma pollBlock_stepsOf : ∀ (fuel i : Nat), stepsOf (pollBlock i fuel) = [] := by
  intro fuel
  induction fuel with
  | zero => intro i; simp [pollBlock, stepsOf]
  | succ f ih =>
    intro i
    have : pollBlock i (f + 1) =
        [Ev.slept UNDELEGATION_POLL_INTERVAL_MS,
          Ev.ownershipCheck i (some DELEGATION_PROGRAM_ID)] ++ pollBlock (i + 1) f := rfl
    rw [this, stepsOf_append, ih (i + 1)]
    rfl

/-! ## Helper lemmas about the ledger session model -/

lemma executeAction_ok_spec (s : Session) (k n c a : Nat) (s2 : Session)
    (h : executeAction s k n c a = Except.ok s2) :
    s2.spentExposure = s.spentExposure + a ∧ s2.maxExposure = s.maxExposure ∧
      s.spentExposure + a ≤ s.maxExposure := by
  unfold executeAction at h
  split_ifs at h with h1 h2 h3 h4
  injection h with h
  subst h
  exact ⟨rfl, rfl, by omega⟩

lemma applyAction_spent_mono (s : Session) (k n c a : Nat) :
    s.spentExposure ≤ (applyAction s k n c a).spentExposure := by
  unfold applyAction
  rcases h : executeAction s k n c a with e | s2
  · simp
  · obtain ⟨h1, _, _⟩ := executeAction_ok_spec s k n c a s2 h
    simp [h1]

lemma applyAction_max_eq (s : Session) (k n c a : Nat) :
    (applyAction s k n c a).maxExposure = s.maxExposure := by
  unfold applyAction
  rcases h : executeAction s k n c a with e | s2
  · simp
  · obtain ⟨_, h2, _⟩ := executeAction_ok_spec s k n c a s2 h
    simp [h2]

lemma applyAction_bound (s : Session) (k n c a : Nat)
    (hle : s.spentExposure ≤ s.maxExposure) :
    (applyAction s k n c a).spentExposure ≤ (applyAction s k n c a).maxExposure := by
  unfold applyAction
  rcases h : executeAction s k n c a with e | s2
  · simpa using hle
  · obtain ⟨h1, h2, h3⟩ := executeAction_ok_spec s k n c a s2 h
    simp [h1, h2]
    omega

lemma runActions_spent_mono (reqs : List (Nat × Nat × Nat × Nat)) :
    ∀ s : Session, s.spentExposure ≤ (runActions s reqs).spentExposure := by
  induction reqs with
  | nil => intro s; simp [runActions]
  | cons r rest ih =>
    intro s
    calc s.spentExposure ≤ (applyAction s r.1 r.2.1 r.2.2.1 r.2.2.2).spentExposure :=
          applyAction_spent_mono s r.1 r.2.1 r.2.2.1 r.2.2.2
      _ ≤ (runActions (applyAction s r.1 r.2.1 r.2.2.1 r.2.2.2) rest).spentExposure :=
          ih (applyAction s r.1 r.2.1 r.2.2.1 r.2.2.2)

lemma runActions_invariant (reqs : List (Nat × Nat × Nat × Nat)) :
    ∀ s : Session, s.spentExposure ≤ s.maxExposure →
      (runActions s reqs).spentExposure ≤ (runActions s reqs).maxExposure := by
  induction reqs with
  | nil => intro s h; simpa [runActions] using h
  | cons r rest ih =>
    intro s h
    have hb := applyAction_bound s r.1 r.2.1 r.2.2.1 r.2.2.2 h
    exact ih (applyAction s r.1 r.2.1 r.2.2.1 r.2.2.2) hb

lemma executeAction_overLimit (s : Session) (k n c : Nat)
    (hk : k = s.deviceKey) (hexp : n ≤ s.expiresAt)
    (hmask : s.strategyMask.testBit c = true) (hmax : s.maxExposure = 1000000) :
    executeAction s k n c 1100001 = Except.error LedgerError.ExposureLimitExceeded := by
  unfold executeAction
  rw [if_neg (by simp [hk]), if_neg (by omega), if_neg (by simp [hmask]),
    if_pos (by omega)]

/-! ## Helper lemmas about the monitoring tick -/

lemma isErr_error {ε α : Type} (x : Except ε α) (h : isErr x = true) :
    ∃ e, x = Except.error e := by
  rcases x with e | v
  · exact ⟨e, rfl⟩
  · simp [isErr] at h

lemma execToolCall_txResult_none (env : TickEnv)
    (h : ∀ k, isErr (submitUpdateLpStatus (env.updateOutcome k)) = true) :
    ∀ (c : ToolCall) (s : TickState), s.txResult = none →
      (execToolCall env s c).txResult = none := by
  intro c s hs
  cases c with
  | check =>
    unfold execToolCall
    rcases env.checkOutcome with e | st <;> simp [hs]
  | update a fx fy =>
    unfold execToolCall
    obtain ⟨e, he⟩ := isErr_error _ (h s.updateCalls)
    simp only [he]
    simpa using hs

lemma foldl_txResult_none (env : TickEnv)
    (h : ∀ k, isErr (submitUpdateLpStatus (env.updateOutcome k)) = true) :
    ∀ (calls : List ToolCall) (s : TickState), s.txResult = none →
      (calls.foldl (execToolCall env) s).txResult = none := by
  intro calls
  induction calls with
  | nil => intro s hs; simpa using hs
  | cons c rest ih =>
    intro s hs
    simp only [List.foldl_cons]
    exact ih _ (execToolCall_txResult_none env h c s hs)

lemma runLoop_txResult_none (env : TickEnv)
    (h : ∀ k, isErr (submitUpdateLpStatus (env.updateOutcome k)) = true) :
    ∀ (script : List LlmResponse) (s : TickState), s.txResult = none →
      (runLoop env script s).txResult = none := by
  intro script
  induction script with
  | nil => intro s hs; simpa [runLoop] using hs
  | cons r rest ih =>
    intro s hs
    cases r with
    | endTurn text => simpa [runLoop] using hs
    | toolUse calls =>
      simp only [runLoop]
      exact ih _ (foldl_txResult_none env h calls s hs)
    | otherStop reason => simpa [runLoop] using hs

lemma execToolCall_owner_irrel (o1 o2 : Option Nat) (c : Except String LpStatus)
    (u : Nat → UpdateOutcome) :
    execToolCall ⟨o1, c, u⟩ = execToolCall ⟨o2, c, u⟩ := rfl

lemma runLoop_owner_irrel (o1 o2 : Option Nat) (c : Except String LpStatus)
    (u : Nat → UpdateOutcome) :
    ∀ (script : List LlmResponse) (s : TickState),
      runLoop ⟨o1, c, u⟩ script s = runLoop ⟨o2, c, u⟩ script s := by
  intro script
  induction script with
  | nil => intro s; rfl
  | cons r rest ih =>
    intro s
    cases r with
    | endTurn t => rfl
    | toolUse calls =>
      simp only [runLoop]
      rw [execToolCall_owner_irrel o1 o2 c u]
      exact ih _
    | otherStop reason => rfl

/-! ## Helper lemmas about the WebSocket handler -/

lemma tokenEqual_iff (a b : List Nat) : tokenEqual a b = true ↔ a = b := by
  unfold tokenEqual
  by_cases h : a = b
  · subst h
    simp
  · simp [h]

lemma onMessage_unauth_effect (s : List Nat) (st : SrvState) (msg : InMsg) :
    (onMessage (some s) st false msg).2.2 ≠ Effect.chatBlockEntered ∧
      (onMessage (some s) st false msg).2.2 ≠ Effect.workflowStarted := by
  cases msg with
  | auth tok =>
    rcases tok with _ | t <;> simp only [onMessage]
    · simp
    · by_cases h : tokenEqual t s = true <;> simp [h]
  | chat m => simp [onMessage, isAuthenticated]
  | action name => simp [onMessage, isAuthenticated]
  | otherMsg => simp [onMessage, isAuthenticated]

lemma onMessage_auth_transition (s : List Nat) (st : SrvState) (msg : InMsg)
    (h : (onMessage (some s) st false msg).2.1 = true) :
    msg = InMsg.auth (some s) := by
  cases msg with
  | auth tok =>
    rcases tok with _ | t
    · simp [onMessage] at h
    · by_cases ht : tokenEqual t s = true
      · rw [(tokenEqual_iff t s).mp ht]
      · simp [onMessage, ht] at h
  | chat m => simp [onMessage, isAuthenticated] at h
  | action name => simp [onMessage, isAuthenticated] at h
  | otherMsg => simp [onMessage, isAuthenticated] at h

lemma runConn_auth_required (s : List Nat) :
    ∀ (msgs : List InMsg) (st : SrvState),
      (Effect.chatBlockEntered ∈ (runConn (some s) st false msgs).2.2 ∨
        Effect.workflowStarted ∈ (runConn (some s) st false msgs).2.2) →
      InMsg.auth (some s) ∈ msgs := by
  intro msgs
  induction msgs with
  | nil => intro st h; simp [runConn] at h
  | cons m rest ih =>
    intro st h
    rcases hm : onMessage (some s) st false m with ⟨st2, authed2, eff⟩
    have heff := onMessage_unauth_effect s st m
    rw [hm] at heff
    simp only [runConn, hm] at h
    cases authed2 with
    | true =>
      have := onMessage_auth_transition s st m (by rw [hm])
      subst this
      exact List.mem_cons_self _ _
    | false =>
      have h' : Effect.chatBlockEntered ∈ (runConn (some s) st2 false rest).2.2 ∨
          Effect.workflowStarted ∈ (runConn (some s) st2 false rest).2.2 := by
        rcases h with h | h <;> simp only [List.mem_cons] at h
        · rcases h with h | h
          · exact absurd h.symm heff.1
          · exact Or.inl h
        · rcases h with h | h
          · exact absurd h.symm heff.2
          · exact Or.inr h
      exact List.mem_cons_of_mem _ (ih st2 h')

/-! ## Claim theorems -/

/-- C2: for every pair of action trigger messages received while an
add_liquidity workflow is in flight, at most one workflow executes — a
trigger arriving while the gate flag is set is dropped (effect
`actionDropped`, gate state unchanged, no workflow launched, hence zero
step events, since step events are emitted only by a launched
`handleAddLiquidity`); the completion handler clears the gate flag
unconditionally, for both the error and the success outcome; and back-to-
back triggers start exactly one workflow while a trigger arriving after the
completion handler acquires the gate again. -/
theorem claim_C2_mutual_exclusion :
    (∀ authed : Bool,
        onMessage none ⟨true⟩ authed (InMsg.action "add_liquidity") =
          (⟨true⟩, authed, Effect.actionDropped)) ∧
    (∀ inFlight errored : Bool, onWorkflowDone ⟨inFlight⟩ errored = ⟨false⟩) ∧
    runConn none ⟨false⟩ true
        [InMsg.action "add_liquidity", InMsg.action "add_liquidity"] =
      (⟨true⟩, true, [Effect.workflowStarted, Effect.actionDropped]) ∧
    onMessage none (onWorkflowDone ⟨true⟩ true) true (InMsg.action "add_liquidity") =
      (⟨true⟩, true, Effect.workflowStarted) := by
  refine ⟨fun authed => ?_, fun _ _ => rfl, by decide, by decide⟩
  cases authed <;> rfl

/-- C8: over any sequence of ExecuteAction requests, `spentExposure` is
monotonically non-decreasing and, once `spentExposure ≤ maxExposure` holds,
it never exceeds `maxExposure`; and with `maxExposure = 1000000`, a request
for 1100001 from the authorized device key, before expiry, with the
strategy bit enabled, is rejected with ExposureLimitExceeded and leaves the
session record (spentExposure and counters) unchanged. The ledger operation
is modelled from the spec (`executeAction`). -/
theorem claim_C8_exposure_invariant :
    (∀ (s : Session) (reqs : List (Nat × Nat × Nat × Nat)),
        s.spentExposure ≤ (runActions s reqs).spentExposure) ∧
    (∀ (s : Session) (reqs : List (Nat × Nat × Nat × Nat)),
        s.spentExposure ≤ s.maxExposure →
        (runActions s reqs).spentExposure ≤ (runActions s reqs).maxExposure) ∧
    (∀ (s : Session) (k n c : Nat), k = s.deviceKey → n ≤ s.expiresAt →
        s.strategyMask.testBit c = true → s.maxExposure = 1000000 →
        executeAction s k n c 1100001 = Except.error LedgerError.ExposureLimitExceeded ∧
          applyAction s k n c 1100001 = s) := by
  refine ⟨fun s reqs => runActions_spent_mono reqs s,
    fun s reqs h => runActions_invariant reqs s h,
    fun s k n c hk hexp hmask hmax => ?_⟩
  have he := executeAction_overLimit s k n c hk hexp hmask hmax
  exact ⟨he, by unfold applyAction; rw [he]⟩

/-- C8 witness: the invariant and the rejection scenario evaluated on the
concrete session `sessionEx` (cap 1000000). -/
theorem claim_C8_witness :
    sessionEx.spentExposure ≤ (runActions sessionEx [(2, 50, 0, 100000)]).spentExposure ∧
    (runActions sessionEx [(2, 50, 0, 100000)]).spentExposure ≤
      (runActions sessionEx [(2, 50, 0, 100000)]).maxExposure ∧
    executeAction sessionEx 2 50 0 1100001 = Except.error LedgerError.ExposureLimitExceeded ∧
    applyAction sessionEx 2 50 0 1100001 = sessionEx :=
  ⟨claim_C8_exposure_invariant.1 sessionEx [(2, 50, 0, 100000)],
   claim_C8_exposure_invariant.2.1 sessionEx [(2, 50, 0, 100000)] (by decide),
   (claim_C8_exposure_invariant.2.2 sessionEx 2 50 0 rfl (by decide) (by decide) rfl).1,
   (claim_C8_exposure_invariant.2.2 sessionEx 2 50 0 rfl (by decide) (by decide) rfl).2⟩

/-- C9: when a WebSocket secret is configured, any non-auth message on a
connection that has not authenticated closes it with code 1008 and has no
other effect (state unchanged, nothing processed); an auth message whose
token is not the secret closes the connection with code 1008; an auth
message carrying exactly the secret authenticates; over any message
sequence, the chat or action branch is reached only if the sequence
contains an auth message with the exact secret; and `tokenEqual` is
byte-for-byte equality (its constant-time execution is a side-channel
property outside the functional model). -/
theorem claim_C9_auth_gating (s : List Nat) :
    (∀ (st : SrvState) (msg : InMsg), (∀ tok, msg ≠ InMsg.auth tok) →
        onMessage (some s) st false msg = (st, false, Effect.closed 1008)) ∧
    (∀ (st : SrvState) (tok : Option (List Nat)), tok ≠ some s →
        onMessage (some s) st false (InMsg.auth tok) = (st, false, Effect.closed 1008)) ∧
    (∀ st : SrvState, onMessage (some s) st false (InMsg.auth (some s)) =
        (st, true, Effect.greeted)) ∧
    (∀ (msgs : List InMsg) (st : SrvState),
        (Effect.chatBlockEntered ∈ (runConn (some s) st false msgs).2.2 ∨
          Effect.workflowStarted ∈ (runConn (some s) st false msgs).2.2) →
        InMsg.auth (some s) ∈ msgs) ∧
    (∀ a b : List Nat, tokenEqual a b = true ↔ a = b) := by
  refine ⟨?_, ?_, ?_, fun msgs st h => runConn_auth_required s msgs st h, tokenEqual_iff⟩
  · intro st msg hna
    cases msg with
    | auth tok => exact absurd rfl (hna tok)
    | chat m => simp [onMessage, isAuthenticated]
    | action name => simp [onMessage, isAuthenticated]
    | otherMsg => simp [onMessage, isAuthenticated]
  · intro st tok htok
    cases tok with
    | none => simp [onMessage]
    | some t =>
      have ht : ¬ tokenEqual t s = true := fun hc =>
        htok (congrArg some ((tokenEqual_iff t s).mp hc))
      simp [onMessage, ht]
  · intro st
    have ht : tokenEqual s s = true := (tokenEqual_iff s s).mpr rfl
    simp [onMessage, ht]

/-- C9 witness: the gating behavior evaluated with secret `[7, 7]`: a chat
before auth closes with 1008, a wrong token closes with 1008, the right
token authenticates, and a trace that reaches the chat branch contains the
successful auth message. -/
theorem claim_C9_witness :
    onMessage (some [7, 7]) ⟨false⟩ false (InMsg.chat "hi") =
      (⟨false⟩, false, Effect.closed 1008) ∧
    onMessage (some [7, 7]) ⟨false⟩ false (InMsg.auth (some [7])) =
      (⟨false⟩, false, Effect.closed 1008) ∧
    onMessage (some [7, 7]) ⟨false⟩ false (InMsg.auth (some [7, 7])) =
      (⟨false⟩, true, Effect.greeted) ∧
    InMsg.auth (some [7, 7]) ∈
      [InMsg.auth (some [7, 7]), InMsg.chat "hi"] ∧
    (tokenEqual [7] [7, 7] = true ↔ [7] = [7, 7]) :=
  ⟨(claim_C9_auth_gating [7, 7]).1 ⟨false⟩ (InMsg.chat "hi")
      (fun tok h => InMsg.noConfusion h),
   (claim_C9_auth_gating [7, 7]).2.1 ⟨false⟩ (some [7]) (by decide),
   (claim_C9_auth_gating [7, 7]).2.2.1 ⟨false⟩,
   (claim_C9_auth_gating [7, 7]).2.2.2.1 [InMsg.auth (some [7, 7]), InMsg.chat "hi"]
      ⟨false⟩ (by decide),
   (claim_C9_auth_gating [7, 7]).2.2.2.2 [7] [7, 7]⟩

/-- C1 counterexample: a tick during which the session record is
`Ephemeral` (owned by the delegation program on the base layer) and the
model follows its prescribed tick script still submits the checkpoint write
— the tick does not skip it, refuting "never submits a checkpoint write
while DelegationLocation = Ephemeral". -/
theorem claim_C1_counterexample :
    delegationLocationOf envTickEphemeral.sessionOwner = DelegationLocation.Ephemeral ∧
    (runTick envTickEphemeral tickScript 1).2.checkpointSubmits = 1 := by
  exact ⟨rfl, rfl⟩

/-- C1 (amended): the periodic tick never consults DelegationLocation — its
entire behavior (tool execution, checkpoint submissions, tick message) is
independent of the session PDA owner, so while `Ephemeral` it submits the
checkpoint write exactly as it would while `Durable`, and no deferral is
logged (no code path produces one). -/
theorem claim_C1_theorem :
    ∀ (env : TickEnv) (script : List LlmResponse) (n : Nat) (o : Option Nat),
      runTick { env with sessionOwner := o } script n = runTick env script n := by
  intro env script n o
  cases env
  simp only [runTick]
  rw [runLoop_owner_irrel]

/-- C7 counterexample: a tick whose checkpoint write is accepted for
inclusion but fails at the instruction level. `submitUpdateLpStatus`
throws, yet the tick result delivered to subscribers carries `error = none`
(the literal null of agent.ts line 134) and a null `txSignature`; the
failure surfaces only as a caught error tool result fed back to the model —
refuting "surfaced as a tick-level error". -/
theorem claim_C7_counterexample :
    submitUpdateLpStatus (envTickFailing.updateOutcome 0) =
      Except.error "update_lp_status TX failed: InstructionError" ∧
    (runTick envTickFailing tickScript 3).2.checkpointSubmits = 1 ∧
    (runTick envTickFailing tickScript 3).1.error = none ∧
    (runTick envTickFailing tickScript 3).1.txSignature = none ∧
    (runTick envTickFailing tickScript 3).2.toolErrors =
      ["update_lp_status TX failed: InstructionError"] := by
  exact ⟨rfl, rfl, rfl, rfl, rfl⟩

/-- C7 (amended): an instruction-level checkpoint failure makes
`submitUpdateLpStatus` throw; `runTick` catches it per tool call and
records it as an error tool result returned to the model, and the tick
message broadcast to subscribers always has `error = none` — with
`txSignature` also null whenever every checkpoint submission of the tick
failed. A tick-level `error` is set only by the entry-point wrapper when
`runTick` itself throws (model API failure), never for a checkpoint
instruction failure. -/
theorem claim_C7_theorem :
    ∀ (env : TickEnv) (script : List LlmResponse) (n : Nat),
      (runTick env script n).1.error = none ∧
      ((∀ k, isErr (submitUpdateLpStatus (env.updateOutcome k)) = true) →
        (runTick env script n).1.txSignature = none) := by
  intro env script n
  refine ⟨rfl, fun h => ?_⟩
  have hres := runLoop_txResult_none env h script TickState.init rfl
  simp [runTick, hres]

/-- C7 witness: the amended statement evaluated on the failing tick
environment. -/
theorem claim_C7_witness :
    (runTick envTickFailing tickScript 4).1.error = none ∧
    (runTick envTickFailing tickScript 4).1.txSignature = none :=
  ⟨(claim_C7_theorem envTickFailing tickScript 4).1,
   (claim_C7_theorem envTickFailing tickScript 4).2 (fun _ => rfl)⟩

/-- C5: in phase 2, if the session PDA on the base layer is already owned
by the delegation program (DelegationLocation = Ephemeral), the workflow
emits the idempotent success step recording that the session is already
delegated, submits no delegate transaction, performs no settle sleep, and
proceeds directly to phase 3; otherwise it submits the delegate operation
and sleeps the fixed settle delay (`ER_PICKUP_DELAY_MS = 3000` ms) before
emitting the phase-2 success step and entering phase 3. -/
theorem claim_C5_idempotent_delegation :
    ∀ (env : AddLiqEnv) (status : LpStatus), env.readPosition = Except.ok status →
      (env.sessionAccountOwner = some DELEGATION_PROGRAM_ID →
        ∃ rest, handleAddLiquidity env =
          [Ev.step step1Pending, Ev.step (step1Success status), Ev.step step2Pending,
            Ev.step step2Already, Ev.step step3Pending] ++ rest ∧
          (∀ sig, Ev.delegateSubmitted sig ∉ handleAddLiquidity env) ∧
          Ev.slept ER_PICKUP_DELAY_MS ∉ handleAddLiquidity env) ∧
      (∀ (owner : Nat) (dSig : String),
          ¬ env.sessionAccountOwner = some DELEGATION_PROGRAM_ID →
          env.sessionOwnerBytes = some owner →
          env.delegateSend = Except.ok dSig →
          ∃ rest, handleAddLiquidity env =
            [Ev.step step1Pending, Ev.step (step1Success status), Ev.step step2Pending,
              Ev.delegateSubmitted dSig, Ev.slept ER_PICKUP_DELAY_MS,
              Ev.step (step2Delegated dSig), Ev.step step3Pending] ++ rest) ∧
      ER_PICKUP_DELAY_MS = 3000 := by
  intro env status hrp
  have hinner : addLiquidityInner env =
      phase2 env status [Ev.step step1Pending, Ev.step (step1Success status)] := by
    unfold addLiquidityInner
    rw [hrp]
    rfl
  refine ⟨?_, ?_, rfl⟩
  · intro hd
    have hphase2 : phase2 env status [Ev.step step1Pending, Ev.step (step1Success status)] =
        phase34 env status [Ev.step step1Pending, Ev.step (step1Success status),
          Ev.step step2Pending, Ev.step step2Already] := by
      unfold phase2
      rw [if_pos hd]
      rfl
    obtain ⟨rest34, hr34, hall34⟩ := phase34_tail env status
      [Ev.step step1Pending, Ev.step (step1Success status), Ev.step step2Pending,
        Ev.step step2Already]
    obtain ⟨tail, htail, halltail⟩ := handle_tail env
    rw [hinner, hphase2, hr34] at htail
    refine ⟨rest34 ++ tail, by rw [htail]; simp, ?_, ?_⟩
    · intro sig hmem
      rw [htail] at hmem
      rcases List.mem_append.mp hmem with hmem | hmem
      · rcases List.mem_append.mp hmem with hmem | hmem
        · simp at hmem
        · rcases List.mem_cons.mp hmem with h | h
          · exact Ev.noConfusion h
          · exact (phase34Ev_not_delegate _ (hall34 _ h)).1 sig rfl
      · obtain ⟨s2, hs2⟩ := halltail _ hmem
        exact Ev.noConfusion hs2
    · intro hmem
      rw [htail] at hmem
      rcases List.mem_append.mp hmem with hmem | hmem
      · rcases List.mem_append.mp hmem with hmem | hmem
        · simp at hmem
        · rcases List.mem_cons.mp hmem with h | h
          · exact Ev.noConfusion h
          · exact (phase34Ev_not_delegate _ (hall34 _ h)).2 rfl
      · obtain ⟨s2, hs2⟩ := halltail _ hmem
        exact Ev.noConfusion hs2
  · intro owner dSig hd hob hds
    have hphase2 : phase2 env status [Ev.step step1Pending, Ev.step (step1Success status)] =
        phase34 env status [Ev.step step1Pending, Ev.step (step1Success status),
          Ev.step step2Pending, Ev.delegateSubmitted dSig, Ev.slept ER_PICKUP_DELAY_MS,
          Ev.step (step2Delegated dSig)] := by
      unfold phase2
      rw [if_neg hd, hob, hds]
      rfl
    obtain ⟨rest34, hr34, hall34⟩ := phase34_tail env status
      [Ev.step step1Pending, Ev.step (step1Success status), Ev.step step2Pending,
        Ev.delegateSubmitted dSig, Ev.slept ER_PICKUP_DELAY_MS,
        Ev.step (step2Delegated dSig)]
    obtain ⟨tail, htail, halltail⟩ := handle_tail env
    rw [hinner, hphase2, hr34] at htail
    exact ⟨rest34 ++ tail, by rw [htail]; simp⟩

/-- C5 witness: both phase-2 branches evaluated on concrete environments
(the already-delegated `envExhaust` and a fresh-delegation variant). -/
theorem claim_C5_witness :
    (∃ rest, handleAddLiquidity envExhaust =
      [Ev.step step1Pending, Ev.step (step1Success lpStatusEx), Ev.step step2Pending,
        Ev.step step2Already, Ev.step step3Pending] ++ rest ∧
      (∀ sig, Ev.delegateSubmitted sig ∉ handleAddLiquidity envExhaust) ∧
      Ev.slept ER_PICKUP_DELAY_MS ∉ handleAddLiquidity envExhaust) ∧
    (∃ rest, handleAddLiquidity { envExhaust with sessionAccountOwner := some AGENT_PROGRAM_ID } =
      [Ev.step step1Pending, Ev.step (step1Success lpStatusEx), Ev.step step2Pending,
        Ev.delegateSubmitted "dsig", Ev.slept ER_PICKUP_DELAY_MS,
        Ev.step (step2Delegated "dsig"), Ev.step step3Pending] ++ rest) ∧
    ER_PICKUP_DELAY_MS = 3000 :=
  ⟨((claim_C5_idempotent_delegation envExhaust lpStatusEx rfl).1 rfl),
   ((claim_C5_idempotent_delegation { envExhaust with sessionAccountOwner := some AGENT_PROGRAM_ID }
      lpStatusEx rfl).2.1 5 "dsig" (by decide) rfl rfl),
   ((claim_C5_idempotent_delegation envExhaust lpStatusEx rfl).2.2)⟩

/-- C6: every exception raised in any phase of the workflow is caught at
the workflow boundary and reported as a single terminal error step with
step index −1 and status error (the only −1 step of the run, appended
last), and `handleAddLiquidity` returns normally — in the embedding it is a
total function whose value in the thrown case is exactly the events so far
plus that one terminal step. -/
theorem claim_C6_boundary_catch :
    ∀ (env : AddLiqEnv) (e : String) (es0 : List Ev),
      addLiquidityInner env = Except.error (e, es0) →
      handleAddLiquidity env = es0 ++ [Ev.step (errorStep e)] ∧
      (stepsOf (handleAddLiquidity env)).getLast? = some (errorStep e) ∧
      (errorStep e).step = -1 ∧
      (errorStep e).status = StepStatus.error ∧
      (stepsOf (handleAddLiquidity env)).filter (fun s2 => decide (s2.step = -1)) =
        [errorStep e] := by
  intro env e es0 hin
  have hh := handleAddLiquidity_of_error env e es0 hin
  have hb : ∀ s2, Ev.step s2 ∈ es0 → 1 ≤ s2.step ∧ s2.step ≤ 5 := by
    intro s2 hmem
    refine inner_step_bounds env s2 ?_
    rw [hin]
    exact hmem
  have hfilter : (stepsOf es0).filter (fun s2 => decide (s2.step = -1)) = [] := by
    rw [List.filter_eq_nil_iff]
    intro s2 hs2
    have := hb s2 ((mem_stepsOf es0 s2).mp hs2)
    simp only [decide_eq_true_eq]
    omega
  refine ⟨hh, ?_, rfl, rfl, ?_⟩
  · rw [hh, stepsOf_append]
    have : stepsOf [Ev.step (errorStep e)] = [errorStep e] := rfl
    rw [this]
    exact List.getLast?_concat _
  · rw [hh, stepsOf_append, List.filter_append, hfilter]
    rfl

/-- C6 witness: a phase-1 failure (position read throws) evaluated
concretely — the workflow returns the pending step plus the single −1
error step. -/
theorem claim_C6_witness :
    handleAddLiquidity { envExhaust with readPosition := Except.error "RPC timeout" } =
      [Ev.step step1Pending, Ev.step (errorStep "RPC timeout")] ∧
    (stepsOf (handleAddLiquidity
        { envExhaust with readPosition := Except.error "RPC timeout" })).filter
      (fun s2 => decide (s2.step = -1)) = [errorStep "RPC timeout"] :=
  ⟨(claim_C6_boundary_catch { envExhaust with readPosition := Except.error "RPC timeout" }
      "RPC timeout" [Ev.step step1Pending] rfl).1,
   (claim_C6_boundary_catch { envExhaust with readPosition := Except.error "RPC timeout" }
      "RPC timeout" [Ev.step step1Pending] rfl).2.2.2.2⟩

/-- C4: after confirmation, `sendErTx` inspects the execution receipt and
turns a transaction that was accepted for inclusion but failed at the
instruction level (`meta.err` set) into a thrown error, exactly like an
outright submission failure; and any `sendErTx` error in phase 3
(executeAction) or phase 4 (commitSession, undelegateSession) aborts the
remaining phases — no reconciliation poll, no checkpoint — and is reported
as the terminal error step of the workflow. (Stated on the
already-delegated phase-2 route; phase 2 is orthogonal to the
propagation.) -/
theorem claim_C4_silent_failure :
    (∀ (o : ErTxOutcome) (sig e : String), o.send = Except.ok sig → o.metaErr = some e →
        sendErTx o = Except.error ("ER TX failed on-chain: " ++ e)) ∧
    (∀ (env : AddLiqEnv) (status : LpStatus) (e : String),
        env.readPosition = Except.ok status →
        env.sessionAccountOwner = some DELEGATION_PROGRAM_ID →
        sendErTx env.erAction = Except.error e →
        handleAddLiquidity env =
          [Ev.step step1Pending, Ev.step (step1Success status), Ev.step step2Pending,
            Ev.step step2Already, Ev.step step3Pending, Ev.step (errorStep e)] ∧
          ownershipChecks (handleAddLiquidity env) = 0 ∧
          Ev.checkpointSubmitted ∉ handleAddLiquidity env) ∧
    (∀ (env : AddLiqEnv) (status : LpStatus) (aSig e : String),
        env.readPosition = Except.ok status →
        env.sessionAccountOwner = some DELEGATION_PROGRAM_ID →
        sendErTx env.erAction = Except.ok aSig →
        sendErTx env.erCommit = Except.error e →
        handleAddLiquidity env =
          [Ev.step step1Pending, Ev.step (step1Success status), Ev.step step2Pending,
            Ev.step step2Already, Ev.step step3Pending, Ev.erSubmitted aSig,
            Ev.step (step3Success aSig), Ev.step step4Pending, Ev.step (errorStep e)] ∧
          ownershipChecks (handleAddLiquidity env) = 0 ∧
          Ev.checkpointSubmitted ∉ handleAddLiquidity env) ∧
    (∀ (env : AddLiqEnv) (status : LpStatus) (aSig cSig e : String),
        env.readPosition = Except.ok status →
        env.sessionAccountOwner = some DELEGATION_PROGRAM_ID →
        sendErTx env.erAction = Except.ok aSig →
        sendErTx env.erCommit = Except.ok cSig →
        sendErTx env.erUndelegate = Except.error e →
        handleAddLiquidity env =
          [Ev.step step1Pending, Ev.step (step1Success status), Ev.step step2Pending,
            Ev.step step2Already, Ev.step step3Pending, Ev.erSubmitted aSig,
            Ev.step (step3Success aSig), Ev.step step4Pending, Ev.erSubmitted cSig,
            Ev.step (errorStep e)] ∧
          ownershipChecks (handleAddLiquidity env) = 0 ∧
          Ev.checkpointSubmitted ∉ handleAddLiquidity env) := by
  refine ⟨?_, ?_, ?_, ?_⟩
  · intro o sig e hs hm
    unfold sendErTx
    rw [hs, hm]
  · intro env status e hrp hd hact
    have h1 : addLiquidityInner env =
        phase2 env status [Ev.step step1Pending, Ev.step (step1Success status)] := by
      unfold addLiquidityInner
      rw [hrp]
      rfl
    have h2 : phase2 env status [Ev.step step1Pending, Ev.step (step1Success status)] =
        phase34 env status [Ev.step step1Pending, Ev.step (step1Success status),
          Ev.step step2Pending, Ev.step step2Already] := by
      unfold phase2
      rw [if_pos hd]
      rfl
    have h3 : phase34 env status [Ev.step step1Pending, Ev.step (step1Success status),
        Ev.step step2Pending, Ev.step step2Already] = Except.error (e,
        [Ev.step step1Pending, Ev.step (step1Success status), Ev.step step2Pending,
          Ev.step step2Already, Ev.step step3Pending]) := by
      unfold phase34
      simp only [hact]
      rfl
    have hinner := (h1.trans h2).trans h3
    have hh := handleAddLiquidity_of_error env e _ hinner
    refine ⟨by rw [hh]; rfl, ?_, ?_⟩
    · rw [hh]
      simp [ownershipChecks]
    · rw [hh]
      simp
  · intro env status aSig e hrp hd hact hcommit
    have h1 : addLiquidityInner env =
        phase2 env status [Ev.step step1Pending, Ev.step (step1Success status)] := by
      unfold addLiquidityInner
      rw [hrp]
      rfl
    have h2 : phase2 env status [Ev.step step1Pending, Ev.step (step1Success status)] =
        phase34 env status [Ev.step step1Pending, Ev.step (step1Success status),
          Ev.step step2Pending, Ev.step step2Already] := by
      unfold phase2
      rw [if_pos hd]
      rfl
    have h3 : phase34 env status [Ev.step step1Pending, Ev.step (step1Success status),
        Ev.step step2Pending, Ev.step step2Already] = Except.error (e,
        [Ev.step step1Pending, Ev.step (step1Success status), Ev.step step2Pending,
          Ev.step step2Already, Ev.step step3Pending, Ev.erSubmitted aSig,
          Ev.step (step3Success aSig), Ev.step step4Pending]) := by
      unfold phase34
      simp only [hact, hcommit]
      rfl
    have hinner := (h1.trans h2).trans h3
    have hh := handleAddLiquidity_of_error env e _ hinner
    refine ⟨by rw [hh]; rfl, ?_, ?_⟩
    · rw [hh]
      simp [ownershipChecks]
    · rw [hh]
      simp
  · intro env status aSig cSig e hrp hd hact hcommit hundel
    have h1 : addLiquidityInner env =
        phase2 env status [Ev.step step1Pending, Ev.step (step1Success status)] := by
      unfold addLiquidityInner
      rw [hrp]
      rfl
    have h2 : phase2 env status [Ev.step step1Pending, Ev.step (step1Success status)] =
        phase34 env status [Ev.step step1Pending, Ev.step (step1Success status),
          Ev.step step2Pending, Ev.step step2Already] := by
      unfold phase2
      rw [if_pos hd]
      rfl
    have h3 : phase34 env status [Ev.step step1Pending, Ev.step (step1Success status),
        Ev.step step2Pending, Ev.step step2Already] = Except.error (e,
        [Ev.step step1Pending, Ev.step (step1Success status), Ev.step step2Pending,
          Ev.step step2Already, Ev.step step3Pending, Ev.erSubmitted aSig,
          Ev.step (step3Success aSig), Ev.step step4Pending, Ev.erSubmitted cSig]) := by
      unfold phase34
      simp only [hact, hcommit, hundel]
      rfl
    have hinner := (h1.trans h2).trans h3
    have hh := handleAddLiquidity_of_error env e _ hinner
    refine ⟨by rw [hh]; rfl, ?_, ?_⟩
    · rw [hh]
      simp [ownershipChecks]
    · rw [hh]
      simp

/-- C4 witness: a phase-3 transaction confirmed with `meta.err` set throws
through `sendErTx`, and the workflow on that environment ends in the
terminal error step with phases 4 and 5 never reached. -/
theorem claim_C4_witness :
    sendErTx (⟨Except.ok "asig", some "custom 6003"⟩ : ErTxOutcome) =
      Except.error ("ER TX failed on-chain: " ++ "custom 6003") ∧
    handleAddLiquidity { envExhaust with erAction := ⟨Except.ok "asig", some "custom 6003"⟩ } =
      [Ev.step step1Pending, Ev.step (step1Success lpStatusEx), Ev.step step2Pending,
        Ev.step step2Already, Ev.step step3Pending,
        Ev.step (errorStep "ER TX failed on-chain: custom 6003")] ∧
    ownershipChecks (handleAddLiquidity
      { envExhaust with erAction := ⟨Except.ok "asig", some "custom 6003"⟩ }) = 0 ∧
    Ev.checkpointSubmitted ∉ handleAddLiquidity
      { envExhaust with erAction := ⟨Except.ok "asig", some "custom 6003"⟩ } :=
  ⟨claim_C4_silent_failure.1 ⟨Except.ok "asig", some "custom 6003"⟩ "asig" "custom 6003" rfl rfl,
   (claim_C4_silent_failure.2.1 { envExhaust with erAction := ⟨Except.ok "asig", some "custom 6003"⟩ }
      lpStatusEx "ER TX failed on-chain: custom 6003" rfl rfl rfl).1,
   (claim_C4_silent_failure.2.1 { envExhaust with erAction := ⟨Except.ok "asig", some "custom 6003"⟩ }
      lpStatusEx "ER TX failed on-chain: custom 6003" rfl rfl rfl).2.1,
   (claim_C4_silent_failure.2.1 { envExhaust with erAction := ⟨Except.ok "asig", some "custom 6003"⟩ }
      lpStatusEx "ER TX failed on-chain: custom 6003" rfl rfl rfl).2.2⟩

/-- C3: the reconciliation poll uses a 5000 ms interval and at most 12
attempts, sleeping one interval before each ownership check; as soon as the
session account owner is no longer the delegation program it submits the
checkpoint write; and when all 12 attempts still observe the delegation
program (60000 ms slept), phase 5 emits the deferred soft-success step
(status success, not error), no checkpoint write is submitted, and nothing
is thrown (the workflow body returns normally with `Except.ok`). -/
theorem claim_C3_soft_timeout :
    (UNDELEGATION_POLL_INTERVAL_MS = 5000 ∧ UNDELEGATION_POLL_ATTEMPTS = 12) ∧
    (∀ (env : AddLiqEnv) (status : LpStatus) (k fuel i : Nat) (es : List Ev),
        k < fuel →
        (∀ j, j < k → env.pollOwner (i + j) = some DELEGATION_PROGRAM_ID) →
        ¬ env.pollOwner (i + k) = some DELEGATION_PROGRAM_ID →
        pollLoop env status i fuel es =
          (es ++ pollBlock i k ++
            Ev.slept UNDELEGATION_POLL_INTERVAL_MS ::
            Ev.ownershipCheck (i + k) (env.pollOwner (i + k)) ::
            checkpointEvents env status, true) ∧
          Ev.checkpointSubmitted ∈ checkpointEvents env status) ∧
    (∀ (env : AddLiqEnv) (status : LpStatus) (aSig cSig uSig : String),
        env.readPosition = Except.ok status →
        env.sessionAccountOwner = some DELEGATION_PROGRAM_ID →
        sendErTx env.erAction = Except.ok aSig →
        sendErTx env.erCommit = Except.ok cSig →
        sendErTx env.erUndelegate = Except.ok uSig →
        (∀ j, j < UNDELEGATION_POLL_ATTEMPTS →
          env.pollOwner j = some DELEGATION_PROGRAM_ID) →
        addLiquidityInner env = Except.ok (handleAddLiquidity env) ∧
        (stepsOf (handleAddLiquidity env)).getLast? = some deferredStep ∧
        deferredStep.status = StepStatus.success ∧
        Ev.checkpointSubmitted ∉ handleAddLiquidity env ∧
        ownershipChecks (handleAddLiquidity env) = 12 ∧
        sleptTotal (handleAddLiquidity env) = 60000) := by
  refine ⟨⟨rfl, rfl⟩, ?_, ?_⟩
  · intro env status k fuel i es hk hdel hrev
    refine ⟨pollLoop_returns env status k fuel i hk hdel hrev es, ?_⟩
    unfold checkpointEvents
    rcases env.checkpointSend status.activeBin status.feeX status.feeY with e | sig <;> simp
  · intro env status aSig cSig uSig hrp hd hact hcommit hundel hpoll
    have h1 : addLiquidityInner env =
        phase2 env status [Ev.step step1Pending, Ev.step (step1Success status)] := by
      unfold addLiquidityInner
      rw [hrp]
      rfl
    have h2 : phase2 env status [Ev.step step1Pending, Ev.step (step1Success status)] =
        phase34 env status [Ev.step step1Pending, Ev.step (step1Success status),
          Ev.step step2Pending, Ev.step step2Already] := by
      unfold phase2
      rw [if_pos hd]
      rfl
    have h3 : phase34 env status [Ev.step step1Pending, Ev.step (step1Success status),
        Ev.step step2Pending, Ev.step step2Already] = Except.ok (phase5 env status
          [Ev.step step1Pending, Ev.step (step1Success status), Ev.step step2Pending,
            Ev.step step2Already, Ev.step step3Pending, Ev.erSubmitted aSig,
            Ev.step (step3Success aSig), Ev.step step4Pending, Ev.erSubmitted cSig,
            Ev.erSubmitted uSig, Ev.step (step4Success cSig uSig)]) := by
      unfold phase34
      simp only [hact, hcommit, hundel]
      rfl
    have hpoll0 : ∀ j, j < UNDELEGATION_POLL_ATTEMPTS →
        env.pollOwner (0 + j) = some DELEGATION_PROGRAM_ID := by
      intro j hj
      simpa using hpoll j hj
    have h5 : phase5 env status
        [Ev.step step1Pending, Ev.step (step1Success status), Ev.step step2Pending,
          Ev.step step2Already, Ev.step step3Pending, Ev.erSubmitted aSig,
          Ev.step (step3Success aSig), Ev.step step4Pending, Ev.erSubmitted cSig,
          Ev.erSubmitted uSig, Ev.step (step4Success cSig uSig)] =
        [Ev.step step1Pending, Ev.step (step1Success status), Ev.step step2Pending,
          Ev.step step2Already, Ev.step step3Pending, Ev.erSubmitted aSig,
          Ev.step (step3Success aSig), Ev.step step4Pending, Ev.erSubmitted cSig,
          Ev.erSubmitted uSig, Ev.step (step4Success cSig uSig), Ev.step step5Pending] ++
          (pollBlock 0 UNDELEGATION_POLL_ATTEMPTS ++ [Ev.step deferredStep]) := by
      unfold phase5
      simp only [pollLoop_delegated env status UNDELEGATION_POLL_ATTEMPTS 0 hpoll0]
      simp
    have hinner := (h1.trans h2).trans (h3.trans (congrArg Except.ok h5))
    have hh := handleAddLiquidity_of_ok env _ hinner
    refine ⟨by rw [hh]; exact hinner, ?_, rfl, ?_, ?_, ?_⟩
    · rw [hh, stepsOf_append, stepsOf_append, pollBlock_stepsOf]
      have hsing : stepsOf [Ev.step deferredStep] = [deferredStep] := rfl
      rw [hsing]
      rw [List.nil_append]
      exact List.getLast?_concat _
    · intro hmem
      rw [hh] at hmem
      rcases List.mem_append.mp hmem with hmem | hmem
      · simp at hmem
      · rcases List.mem_append.mp hmem with hmem | hmem
        · exact pollBlock_no_checkpoint UNDELEGATION_POLL_ATTEMPTS 0 hmem
        · simp at hmem
    · rw [hh, ownershipChecks_append, ownershipChecks_append, pollBlock_checks]
      have hz1 : ownershipChecks [Ev.step step1Pending, Ev.step (step1Success status),
          Ev.step step2Pending, Ev.step step2Already, Ev.step step3Pending,
          Ev.erSubmitted aSig, Ev.step (step3Success aSig), Ev.step step4Pending,
          Ev.erSubmitted cSig, Ev.erSubmitted uSig, Ev.step (step4Success cSig uSig),
          Ev.step step5Pending] = 0 := by
        simp [ownershipChecks]
      have hz2 : ownershipChecks [Ev.step deferredStep] = 0 := by
        simp [ownershipChecks]
      rw [hz1, hz2]
      rfl
    · rw [hh, sleptTotal_append, sleptTotal_append, pollBlock_slept]
      have hz1 : sleptTotal [Ev.step step1Pending, Ev.step (step1Success status),
          Ev.step step2Pending, Ev.step step2Already, Ev.step step3Pending,
          Ev.erSubmitted aSig, Ev.step (step3Success aSig), Ev.step step4Pending,
          Ev.erSubmitted cSig, Ev.erSubmitted uSig, Ev.step (step4Success cSig uSig),
          Ev.step step5Pending] = 0 := by
        simp [sleptTotal]
      have hz2 : sleptTotal [Ev.step deferredStep] = 0 := by
        simp [sleptTotal]
      rw [hz1, hz2]
      rfl

/-- C3 witness: the exhaustion scenario evaluated on `envExhaust` (owner
stays with the delegation program for all 12 attempts): the workflow body
returns `Except.ok`, the final step is the deferred soft-success, no
checkpoint write is submitted, 12 checks are performed and 60000 ms are
slept; plus one early-return instance of the poll. -/
theorem claim_C3_witness :
    (addLiquidityInner envExhaust = Except.ok (handleAddLiquidity envExhaust) ∧
      (stepsOf (handleAddLiquidity envExhaust)).getLast? = some deferredStep ∧
      Ev.checkpointSubmitted ∉ handleAddLiquidity envExhaust ∧
      ownershipChecks (handleAddLiquidity envExhaust) = 12 ∧
      sleptTotal (handleAddLiquidity envExhaust) = 60000) ∧
    pollLoop { envExhaust with pollOwner := fun _ => some AGENT_PROGRAM_ID } lpStatusEx
        0 UNDELEGATION_POLL_ATTEMPTS [] =
      ([] ++ pollBlock 0 0 ++
        Ev.slept UNDELEGATION_POLL_INTERVAL_MS ::
        Ev.ownershipCheck 0 (some AGENT_PROGRAM_ID) ::
        checkpointEvents { envExhaust with pollOwner := fun _ => some AGENT_PROGRAM_ID }
          lpStatusEx, true) :=
  ⟨⟨((claim_C3_soft_timeout.2.2 envExhaust lpStatusEx "asig" "csig" "usig"
        rfl rfl rfl rfl rfl (fun j hj => rfl))).1,
    ((claim_C3_soft_timeout.2.2 envExhaust lpStatusEx "asig" "csig" "usig"
        rfl rfl rfl rfl rfl (fun j hj => rfl))).2.1,
    ((claim_C3_soft_timeout.2.2 envExhaust lpStatusEx "asig" "csig" "usig"
        rfl rfl rfl rfl rfl (fun j hj => rfl))).2.2.2.1,
    ((claim_C3_soft_timeout.2.2 envExhaust lpStatusEx "asig" "csig" "usig"
        rfl rfl rfl rfl rfl (fun j hj => rfl))).2.2.2.2.1,
    ((claim_C3_soft_timeout.2.2 envExhaust lpStatusEx "asig" "csig" "usig"
        rfl rfl rfl rfl rfl (fun j hj => rfl))).2.2.2.2.2⟩,
   ((claim_C3_soft_timeout.2.1 { envExhaust with pollOwner := fun _ => some AGENT_PROGRAM_ID }
        lpStatusEx 0 UNDELEGATION_POLL_ATTEMPTS 0 [] (by decide)
        (fun j hj => absurd hj (by omega)) (by decide))).1⟩

end Hyperbiscus
